import Mathlib

/-!
Shallow embedding of the NetWolf packet-header codec (`src/udp/headers.rs`).

Rust `&str`/`String` values are modelled as `List Char` (UTF-8 text as a
sequence of Unicode scalar values); raw byte buffers (`&[u8]`) as `List Nat`
with every element a byte value.  Rust operations that can panic
(`unwrap`, out-of-bounds slicing) are modelled with `Option`, `none`
standing for the panic.
-/

/-- The `PacketHeader` enum of `headers.rs`. -/
inductive PacketHeader where
  | Disc
  | GET
  | GETACK
  | TCPReceiverExistence
  | UDPReceiverExistence
  | StopWaitData
  | StopWaitACK
  | StopWaitNAK
  | GoBackN
  | SRepeat
  | Unrecognized
deriving DecidableEq

namespace PacketHeader

/-- Token `PacketHeader::discovery()`. -/
def discovery : List Char := "DISC\n".data

/-- Token `PacketHeader::ack()`. -/
def ack : List Char := "ACK\n".data

/-- Token `PacketHeader::get()`. -/
def get : List Char := "GET\n".data

/-- Token `PacketHeader::stop_and_wait_data()`. -/
def stop_and_wait_data : List Char := "SWD".data

/-- Token `PacketHeader::stop_and_wait_ack()`. -/
def stop_and_wait_ack : List Char := "SWA".data

/-- Token `PacketHeader::stop_and_wait_nak()`. -/
def stop_and_wait_nak : List Char := "SWN".data

/-- Token `PacketHeader::go_back_n()`. -/
def go_back_n : List Char := "GBN".data

/-- Token `PacketHeader::selective_repeat()`. -/
def selective_repeat : List Char := "SR".data

/-- Token `PacketHeader::tcp_get()`. -/
def tcp_get : List Char := "TCPGET".data

end PacketHeader

/-- Drop one leading carriage return from a reversed line accumulator;
models the `\x0d` stripping that Rust's `str::lines` performs on a line
that was terminated by a newline. -/
def stripCRrev : List Char → List Char
  | '\x0d' :: rest => rest
  | acc => acc

/-- Accumulator worker for `rustLines`; `acc` holds the current line
reversed. -/
def linesAux : List Char → List Char → List (List Char)
  | [], acc => if acc.isEmpty then [] else [acc.reverse]
  | c :: rest, acc =>
      if c = '\n' then (stripCRrev acc).reverse :: linesAux rest []
      else linesAux rest (c :: acc)

/-- Model of Rust `str::lines`: split at `\n`, strip a carriage return
that directly precedes a `\n`, and do not emit a final empty line for a
trailing newline. -/
def rustLines (s : List Char) : List (List Char) := linesAux s []

/-- The first line of a buffer as used by the classifier:
`packet_str.lines().next().unwrap_or("")`. -/
def first_line (s : List Char) : List Char := (rustLines s).headD []

/-- The string `[header_str, "\n"].join("")` built by
`PacketHeader::packet_type`: the first line with a newline re-appended. -/
def header_of (s : List Char) : List Char := first_line s ++ ['\n']

namespace PacketHeader

/-- `PacketHeader::packet_type`: take the first line, re-append `\n`, and
prefix-match against the token table in the source's order. -/
def packet_type (packet_str : List Char) : PacketHeader :=
  if discovery.isPrefixOf (header_of packet_str) then .Disc
  else if get.isPrefixOf (header_of packet_str) then .GET
  else if ack.isPrefixOf (header_of packet_str) then .GETACK
  else if tcp_get.isPrefixOf (header_of packet_str) then .TCPReceiverExistence
  else if stop_and_wait_data.isPrefixOf (header_of packet_str) then .StopWaitData
  else if stop_and_wait_ack.isPrefixOf (header_of packet_str) then .StopWaitACK
  else if stop_and_wait_nak.isPrefixOf (header_of packet_str) then .StopWaitNAK
  else if go_back_n.isPrefixOf (header_of packet_str) then .GoBackN
  else if selective_repeat.isPrefixOf (header_of packet_str) then .SRepeat
  else .Unrecognized

/-- `impl fmt::Display for PacketHeader`, including the source's branch
that renders `GET` with `PacketHeader::discovery()` and the final
catch-all branch that also renders `discovery()`. -/
def display (h : PacketHeader) : List Char :=
  if h = .Disc then discovery
  else if h = .GET then discovery
  else if h = .GETACK then ack
  else if h = .TCPReceiverExistence then tcp_get
  else if h = .StopWaitData then stop_and_wait_data
  else if h = .StopWaitACK then stop_and_wait_ack
  else if h = .StopWaitNAK then stop_and_wait_nak
  else if h = .GoBackN then go_back_n
  else if h = .SRepeat then selective_repeat
  else discovery

end PacketHeader

/-- Model of Rust `str::parse::<u16>` (`u16::from_str`): an optional
leading plus sign, then one or more ASCII decimal digits, value at most
`65535`; anything else is a parse error. -/
def parse_u16 (cs : List Char) : Option Nat :=
  let ds := match cs with
            | '+' :: rest => rest
            | _ => cs
  if ds.isEmpty then none
  else if ds.all Char.isDigit then
    let v := ds.foldl (fun a c => a * 10 + (c.toNat - 48)) 0
    if v ≤ 65535 then some v else none
  else none

/-- The `TCPHeader` struct of `headers.rs` (the line-oriented connection
header `{conn_type, udp_get_port, file_name}`). -/
structure TCPHeader where
  conn_type : PacketHeader
  udp_get_port : Nat
  file_name : List Char
deriving DecidableEq

namespace TCPHeader

/-- `TCPHeader::new`. -/
def new (conn_type : PacketHeader) (udp_get_port : Nat) (file_name : List Char) :
    TCPHeader :=
  ⟨conn_type, udp_get_port, file_name⟩

/-- `TCPHeader::from_string`.  The source calls `.next().unwrap()` on the
first two lines (a panic, modelled as `none`, when either is missing),
`parse::<u16>().unwrap_or(0)` on the port line and `.next().unwrap_or("")`
on the file-name line. -/
def from_string (packet : List Char) : Option TCPHeader :=
  match rustLines packet with
  | [] => none
  | packet_type_line :: rest =>
    let conn_type := PacketHeader.packet_type packet_type_line
    match rest with
    | [] => none
    | port_line :: rest2 =>
      let udp_get_port := (parse_u16 port_line).getD 0
      let file_name := rest2.headD []
      some (new conn_type udp_get_port file_name)

end TCPHeader

/-- The `StdinHeader::get()` token. -/
def StdinHeader.get : List Char := "get".data

/-- The `StdinHeader::list()` token. -/
def StdinHeader.list : List Char := "list".data

/-- Validity of the first continuation byte of a 3-byte UTF-8 sequence,
depending on the lead byte (rejects overlong forms and surrogates, as
Rust's `std::str::from_utf8` does). -/
def cont2ok (b b2 : Nat) : Bool :=
  if b = 0xE0 then decide (0xA0 ≤ b2 ∧ b2 ≤ 0xBF)
  else if b = 0xED then decide (0x80 ≤ b2 ∧ b2 ≤ 0x9F)
  else decide (0x80 ≤ b2 ∧ b2 ≤ 0xBF)

/-- Validity of the first continuation byte of a 4-byte UTF-8 sequence,
depending on the lead byte (rejects overlong forms and code points above
`0x10FFFF`). -/
def cont3ok (b b2 : Nat) : Bool :=
  if b = 0xF0 then decide (0x90 ≤ b2 ∧ b2 ≤ 0xBF)
  else if b = 0xF4 then decide (0x80 ≤ b2 ∧ b2 ≤ 0x8F)
  else decide (0x80 ≤ b2 ∧ b2 ≤ 0xBF)

/-- Decode one UTF-8 scalar value whose lead byte is `b`, returning the
code point and the remaining bytes; `none` on any invalid sequence. -/
def utf8Step (b : Nat) (rest : List Nat) : Option (Nat × List Nat) :=
  if b ≤ 0x7F then some (b, rest)
  else if 0xC2 ≤ b ∧ b ≤ 0xDF then
    match rest with
    | b2 :: rest2 =>
      if 0x80 ≤ b2 ∧ b2 ≤ 0xBF then
        some ((b - 0xC0) * 0x40 + (b2 - 0x80), rest2)
      else none
    | [] => none
  else if 0xE0 ≤ b ∧ b ≤ 0xEF then
    match rest with
    | b2 :: b3 :: rest3 =>
      if cont2ok b b2 = true ∧ 0x80 ≤ b3 ∧ b3 ≤ 0xBF then
        some ((b - 0xE0) * 0x1000 + (b2 - 0x80) * 0x40 + (b3 - 0x80), rest3)
      else none
    | _ => none
  else if 0xF0 ≤ b ∧ b ≤ 0xF4 then
    match rest with
    | b2 :: b3 :: b4 :: rest4 =>
      if cont3ok b b2 = true ∧ 0x80 ≤ b3 ∧ b3 ≤ 0xBF ∧ 0x80 ≤ b4 ∧ b4 ≤ 0xBF then
        some ((b - 0xF0) * 0x40000 + (b2 - 0x80) * 0x1000 + (b3 - 0x80) * 0x40 +
          (b4 - 0x80), rest4)
      else none
    | _ => none
  else none

/-- Fuel-indexed strict UTF-8 decoder; each scalar consumes at least one
byte and exactly one unit of fuel, so starting with `fuel = length` the
fuel never runs out. -/
def utf8Go : Nat → List Nat → Option (List Char)
  | _, [] => some []
  | 0, _ :: _ => none
  | fuel + 1, b :: rest =>
    match utf8Step b rest with
    | none => none
    | some (code, rest2) =>
      match utf8Go fuel rest2 with
      | none => none
      | some cs => some (Char.ofNat code :: cs)

/-- Model of Rust `std::str::from_utf8`: strict UTF-8 validation and
decoding of a byte buffer, `none` on invalid input. -/
def from_utf8 (l : List Nat) : Option (List Char) := utf8Go l.length l

/-- Number of bytes of the UTF-8 encoding of one character. -/
def charUtf8Size (c : Char) : Nat :=
  if c.toNat ≤ 0x7F then 1
  else if c.toNat ≤ 0x7FF then 2
  else if c.toNat ≤ 0xFFFF then 3
  else 4

/-- UTF-8 byte length of a text value, the model of Rust's
`str::as_bytes().len()`. -/
def utf8Len (cs : List Char) : Nat := (cs.map charUtf8Size).sum

/-- Model of the Rust slice expression `&buf[a..b]`, which panics
(`none`) unless `a ≤ b ∧ b ≤ buf.len()`. -/
def rustSlice (buf : List Nat) (a b : Nat) : Option (List Nat) :=
  if a ≤ b ∧ b ≤ buf.length then some ((buf.take b).drop a) else none

/-- The `StopAndWaitHeader` struct of `headers.rs` (the fixed-field data
header prepended to ARQ segments). -/
structure StopAndWaitHeader where
  header_size : Nat
  get_port : Nat
  rdt_port : Nat
  file_name : List Char
deriving DecidableEq

namespace StopAndWaitHeader

/-- `StopAndWaitHeader::new`. -/
def new (header_size get_port rdt_port : Nat) (file_name : List Char) :
    StopAndWaitHeader :=
  ⟨header_size, get_port, rdt_port, file_name⟩

/-- `StopAndWaitHeader::u16_from_bytes`: UTF-8 decode then
`parse::<u16>`, each `unwrap` modelled as `Option` bind. -/
def u16_from_bytes (buf : List Nat) : Option Nat :=
  match from_utf8 buf with
  | none => none
  | some cs => parse_u16 cs

/-- `StopAndWaitHeader::from_string`: the three fixed 2-byte fields at
offsets `[0,2)`, `[2,4)`, `[4,6)`, then the file name at
`[6, header_size)`.  Every slice and every `unwrap` of the source is a
panic point, modelled as `none`. -/
def from_string (buf : List Nat) : Option StopAndWaitHeader :=
  match rustSlice buf 0 2 with
  | none => none
  | some s1 =>
    match u16_from_bytes s1 with
    | none => none
    | some header_size =>
      match rustSlice buf 2 4 with
      | none => none
      | some s2 =>
        match u16_from_bytes s2 with
        | none => none
        | some get_port =>
          match rustSlice buf 4 6 with
          | none => none
          | some s3 =>
            match u16_from_bytes s3 with
            | none => none
            | some rdt_port =>
              match rustSlice buf 6 header_size with
              | none => none
              | some s4 =>
                match from_utf8 s4 with
                | none => none
                | some file_name =>
                  some (new header_size get_port rdt_port file_name)

/-- `StopAndWaitHeader::packet_size`: `size_of::<u16>() * 3` plus the
byte length of the file name. -/
def packet_size (file_name : List Char) : Nat := 2 * 3 + utf8Len file_name

end StopAndWaitHeader

example : from_utf8 [72, 105] = some "Hi".data := by decide

example : from_utf8 [0xC3, 0xA9] = some ['é'] := by decide

example : from_utf8 [0xC0, 0x80] = none := by decide

example : from_utf8 [0xED, 0xA0, 0x80] = none := by decide

example : StopAndWaitHeader.from_string [48, 56, 49, 48, 50, 48, 97, 0] =
    some ⟨8, 10, 20, ['a', Char.ofNat 0]⟩ := by decide

example : StopAndWaitHeader.from_string [48, 56, 49, 48, 50, 48] = none := by decide

example : rustLines "GET\n\n8080\nreport.txt".data =
    ["GET".data, [], "8080".data, "report.txt".data] := by decide

example : parse_u16 "8080".data = some 8080 := by decide

example : parse_u16 "+80".data = some 80 := by decide

example : parse_u16 "abc".data = none := by decide

example : parse_u16 [] = none := by decide

example : parse_u16 "99999".data = none := by decide

example : TCPHeader.from_string "DISC\n5\nx".data =
    some ⟨PacketHeader.Disc, 5, "x".data⟩ := by decide

example : TCPHeader.from_string "DISC".data = none := by decide

example : TCPHeader.from_string [] = none := by decide

example : rustLines "a\x0d\n".data = ["a".data] := by decide

example : rustLines [] = [] := by decide

example : PacketHeader.packet_type "DISC\n5\nx".data = PacketHeader.Disc := by decide

example : PacketHeader.packet_type "SWAP".data = PacketHeader.StopWaitACK := by decide

example : PacketHeader.packet_type "DISCOVER".data = PacketHeader.Unrecognized := by decide

/-- Claim C1: classifying the rendered canonical token round-trips for
the nine explicitly mapped variants.  This fails on the source: the
`Display` branch for `GET` renders `PacketHeader::discovery()` (the
function `get()` exists but is not used there), so
`packet_type (display GET) = Disc`, not `GET`.  The other eight variants
do round-trip. -/
theorem c1_render_classify_roundtrip_bug :
    PacketHeader.packet_type (PacketHeader.display PacketHeader.GET) = PacketHeader.Disc ∧
    PacketHeader.Disc ≠ PacketHeader.GET ∧
    PacketHeader.packet_type (PacketHeader.display PacketHeader.Disc) = PacketHeader.Disc ∧
    PacketHeader.packet_type (PacketHeader.display PacketHeader.GETACK) = PacketHeader.GETACK ∧
    PacketHeader.packet_type (PacketHeader.display PacketHeader.TCPReceiverExistence) =
      PacketHeader.TCPReceiverExistence ∧
    PacketHeader.packet_type (PacketHeader.display PacketHeader.StopWaitData) =
      PacketHeader.StopWaitData ∧
    PacketHeader.packet_type (PacketHeader.display PacketHeader.StopWaitACK) =
      PacketHeader.StopWaitACK ∧
    PacketHeader.packet_type (PacketHeader.display PacketHeader.StopWaitNAK) =
      PacketHeader.StopWaitNAK ∧
    PacketHeader.packet_type (PacketHeader.display PacketHeader.GoBackN) =
      PacketHeader.GoBackN ∧
    PacketHeader.packet_type (PacketHeader.display PacketHeader.SRepeat) =
      PacketHeader.SRepeat := by
  decide

/-- Claim C2, counterexample: the buffer `"GET\n\n8080\nreport.txt"` does
not decode to `{kind=Get, udp_get_port=8080, file_name="report.txt"}`;
the blank second line (produced by the token's embedded newline) is
consumed as the port line. -/
theorem c2_counterexample :
    TCPHeader.from_string "GET\n\n8080\nreport.txt".data ≠
      some ⟨PacketHeader.GET, 8080, "report.txt".data⟩ := by
  decide

/-- Claim C2, amended: the four-line buffer `"GET\n\n8080\nreport.txt"`
decodes to `{kind=Get, udp_get_port=0, file_name="8080"}` (the blank
second line parses as port 0 and `"8080"` becomes the file name), while
the three-line buffer `"GET\n8080\nreport.txt"` decodes to
`{kind=Get, udp_get_port=8080, file_name="report.txt"}`. -/
theorem c2_amended_decode :
    TCPHeader.from_string "GET\n\n8080\nreport.txt".data =
      some ⟨PacketHeader.GET, 0, "8080".data⟩ ∧
    TCPHeader.from_string "GET\n8080\nreport.txt".data =
      some ⟨PacketHeader.GET, 8080, "report.txt".data⟩ := by
  decide

/-- Claim C3, counterexample: the buffer `"DISC"` has a first line
(`rustLines` yields `["DISC"]`), yet decoding fails, because the source
also calls `.next().unwrap()` on the missing second (port) line. -/
theorem c3_counterexample :
    rustLines "DISC".data = ["DISC".data] ∧
    TCPHeader.from_string "DISC".data = none := by
  decide

/-- Claim C3, amended: `TCPHeader::from_string` succeeds exactly when
the buffer has at least two lines; with both the kind line and the port
line present, a malformed port and a missing file name degrade to the
defaults rather than failing. -/
theorem c3_amended_failure_condition (buf : List Char) :
    (TCPHeader.from_string buf).isSome = true ↔ 2 ≤ (rustLines buf).length := by
  rcases h : rustLines buf with _ | ⟨l1, _ | ⟨l2, rest⟩⟩ <;>
    simp [TCPHeader.from_string, h]

/-- Claim C4: a data-header buffer whose declared `header_size` exceeds
the buffer length (here `"081020"`, six bytes declaring size 8), or
whose fixed 2-byte fields are not decimal text (here `"??1020a\x00"`),
produces no partially populated `StopAndWaitHeader`.  In the source the
failure is an `unwrap`/slice-index panic rather than a recoverable
`Result`, modelled here as `none`. -/
theorem c4_malformed_data_header_no_partial :
    StopAndWaitHeader.from_string [48, 56, 49, 48, 50, 48] = none ∧
    StopAndWaitHeader.from_string [63, 63, 49, 48, 50, 48, 97, 0] = none := by
  decide

/-- Claim C6: `packet_size` returns `6` plus the UTF-8 byte length of
the file name. -/
theorem c6_packet_size_formula (file_name : List Char) :
    StopAndWaitHeader.packet_size file_name = 6 + utf8Len file_name := rfl

/-- Claim C7: the 8-byte buffer `"08" "10" "20" 'a' 0x00` decodes to
`{header_size=8, get_port=10, rdt_port=20, file_name="a\x00"}`, the file
name spanning exactly bytes `[6, header_size)`. -/
theorem c7_data_header_decode_example :
    StopAndWaitHeader.from_string [48, 56, 49, 48, 50, 48, 97, 0] =
      some ⟨8, 10, 20, ['a', Char.ofNat 0]⟩ := by
  decide

/-- Claim C5: classification is total — every buffer, including the
empty one and buffers without a newline, classifies to one of the nine
mapped kinds or to the `Unrecognized` fallback. -/
theorem c5_classify_total :
    (∀ s : List Char,
      PacketHeader.packet_type s = PacketHeader.Disc ∨
      PacketHeader.packet_type s = PacketHeader.GET ∨
      PacketHeader.packet_type s = PacketHeader.GETACK ∨
      PacketHeader.packet_type s = PacketHeader.TCPReceiverExistence ∨
      PacketHeader.packet_type s = PacketHeader.StopWaitData ∨
      PacketHeader.packet_type s = PacketHeader.StopWaitACK ∨
      PacketHeader.packet_type s = PacketHeader.StopWaitNAK ∨
      PacketHeader.packet_type s = PacketHeader.GoBackN ∨
      PacketHeader.packet_type s = PacketHeader.SRepeat ∨
      PacketHeader.packet_type s = PacketHeader.Unrecognized) ∧
    PacketHeader.packet_type [] = PacketHeader.Unrecognized ∧
    PacketHeader.packet_type "xyz no newline".data = PacketHeader.Unrecognized := by
  refine ⟨fun s => ?_, by decide, by decide⟩
  unfold PacketHeader.packet_type
  split_ifs <;> simp

/-- Claim C8: when the buffer has a first line and a second line whose
text is not a valid `u16`, decoding succeeds with the port soft-defaulted
to `0`; kind and file name are decoded normally. -/
theorem c8_port_soft_default (buf l1 l2 : List Char) (rest : List (List Char))
    (h : rustLines buf = l1 :: l2 :: rest) (hp : parse_u16 l2 = none) :
    TCPHeader.from_string buf =
      some ⟨PacketHeader.packet_type l1, 0, rest.headD []⟩ := by
  simp [TCPHeader.from_string, h, hp, TCPHeader.new]

/-- Witness for C8 at the spec's example `"DISC\nabc\nfile.txt"`. -/
theorem c8_port_soft_default_witness :
    TCPHeader.from_string "DISC\nabc\nfile.txt".data =
      some ⟨PacketHeader.Disc, 0, "file.txt".data⟩ := by
  have h := c8_port_soft_default "DISC\nabc\nfile.txt".data "DISC".data "abc".data
    ["file.txt".data] (by decide) (by decide)
  rw [h]
  decide

/-- Elements of `stripCRrev acc` are elements of `acc`. -/
theorem mem_stripCRrev {x : Char} {acc : List Char} (h : x ∈ stripCRrev acc) :
    x ∈ acc := by
  cases acc with
  | nil => simp [stripCRrev] at h
  | cons a t =>
    by_cases ha : a = '\x0d'
    · simp [stripCRrev, ha] at h
      simp [h]
    · simpa [stripCRrev, ha] using h

/-- Lines produced by `linesAux` contain no newline character. -/
theorem no_newline_mem_linesAux (s : List Char) :
    ∀ (acc : List Char), '\n' ∉ acc → ∀ l ∈ linesAux s acc, '\n' ∉ l := by
  induction s with
  | nil =>
    intro acc hacc l hl
    unfold linesAux at hl
    split at hl
    · simp at hl
    · simp at hl
      subst hl
      intro hmem
      exact hacc (List.mem_reverse.mp hmem)
  | cons c rest ih =>
    intro acc hacc l hl
    unfold linesAux at hl
    split at hl
    · rcases List.mem_cons.mp hl with h1 | h1
      · subst h1
        intro hmem
        exact hacc (mem_stripCRrev (List.mem_reverse.mp hmem))
      · exact ih [] (by simp) l h1
    · rename_i hc
      refine ih (c :: acc) ?_ l hl
      intro hmem
      rcases List.mem_cons.mp hmem with h1 | h1
      · exact hc h1.symm
      · exact hacc h1

/-- The classifier's first line never contains a newline. -/
theorem first_line_no_newline (s : List Char) : '\n' ∉ first_line s := by
  unfold first_line
  cases h : rustLines s with
  | nil => simp
  | cons l ls =>
    have hmem : l ∈ linesAux s [] := by
      rw [show linesAux s [] = rustLines s from rfl, h]
      exact List.mem_cons_self l ls
    simpa using no_newline_mem_linesAux s [] (by simp) l hmem

/-- A newline-terminated token is a prefix of `fl ++ "\n"` exactly when
the token body equals `fl`, provided neither contains a newline. -/
theorem token_nl_prefix_iff (t fl : List Char) (ht : '\n' ∉ t)
    (hfl : '\n' ∉ fl) :
    t ++ ['\n'] <+: fl ++ ['\n'] ↔ t = fl := by
  induction t generalizing fl with
  | nil =>
    cases fl with
    | nil => simp
    | cons b fl' =>
      have hb : b ≠ '\n' := fun h => hfl (by simp [h])
      simp [List.cons_prefix_cons, Ne.symm hb]
  | cons a t' ih =>
    have ha : a ≠ '\n' := fun h => ht (by simp [h])
    have ht' : '\n' ∉ t' := fun h => ht (List.mem_cons_of_mem _ h)
    cases fl with
    | nil => simp [List.cons_prefix_cons, ha]
    | cons b fl' =>
      have hfl' : '\n' ∉ fl' := fun h => hfl (List.mem_cons_of_mem _ h)
      simp [List.cons_prefix_cons, ih fl' ht' hfl']

/-- A newline-free bare token is a prefix of `fl ++ "\n"` exactly when it
is a prefix of `fl`. -/
theorem bare_token_prefix_iff (t fl : List Char) (ht : '\n' ∉ t) :
    t <+: fl ++ ['\n'] ↔ t <+: fl := by
  induction t generalizing fl with
  | nil => simp
  | cons a t' ih =>
    have ha : a ≠ '\n' := fun h => ht (by simp [h])
    have ht' : '\n' ∉ t' := fun h => ht (List.mem_cons_of_mem _ h)
    cases fl with
    | nil => simp [List.cons_prefix_cons, ha]
    | cons b fl' => simp [List.cons_prefix_cons, ih fl' ht']

/-- The executable `isPrefixOf` test agrees with the `<+:` relation. -/
theorem isPrefixOf_eq_true_iff (l1 l2 : List Char) :
    l1.isPrefixOf l2 = true ↔ l1 <+: l2 := by
  induction l1 generalizing l2 with
  | nil => simp [List.isPrefixOf]
  | cons a t ih =>
    cases l2 with
    | nil => simp [List.isPrefixOf]
    | cons b l2' => simp [List.isPrefixOf, beq_iff_eq, ih, List.cons_prefix_cons]

/-- Two prefixes of the same list are ordered: the shorter is a prefix of
the longer. -/
theorem isPrefixOf_of_both (p q l : List Char) (hp : p.isPrefixOf l = true)
    (hq : q.isPrefixOf l = true) (hlen : q.length ≤ p.length) :
    q.isPrefixOf p = true := by
  induction p generalizing q l with
  | nil =>
    have : q = [] := List.eq_nil_of_length_eq_zero (Nat.le_zero.mp hlen)
    subst this
    simp [List.isPrefixOf]
  | cons a p' ih =>
    cases q with
    | nil => simp [List.isPrefixOf]
    | cons b q' =>
      cases l with
      | nil => simp [List.isPrefixOf] at hp
      | cons c l' =>
        simp only [List.isPrefixOf, Bool.and_eq_true, beq_iff_eq] at hp hq ⊢
        obtain ⟨hac, hp'⟩ := hp
        obtain ⟨hbc, hq'⟩ := hq
        refine ⟨by rw [hbc, ← hac], ?_⟩
        exact ih q' l' hp' hq' (Nat.succ_le_succ_iff.mp hlen)

/-- Two prefixes of the same list are ordered by length, stated with the
`<+:` relation. -/
theorem prefix_of_both (p q l : List Char) (hp : p <+: l) (hq : q <+: l)
    (hlen : q.length ≤ p.length) : q <+: p := by
  rw [← isPrefixOf_eq_true_iff] at hp hq ⊢
  exact isPrefixOf_of_both p q l hp hq hlen

/-- A token that is not a prefix of an established (at least as long)
prefix of `fl` cannot itself be a prefix of `fl`. -/
theorem not_prefix_of_other (p q fl : List Char)
    (hq : q <+: fl) (hpq : ¬ p <+: q) (hlen : p.length ≤ q.length) :
    ¬ p <+: fl := by
  intro hp
  exact hpq (prefix_of_both q p fl hq hp hlen)

/-- The classifier, re-expressed over the first line: the three
newline-suffixed tokens demand exact first-line equality, the six bare
tokens demand only a prefix, in the source's priority order. -/
theorem packet_type_eq_cases (s : List Char) :
    PacketHeader.packet_type s =
      if first_line s = "DISC".data then .Disc
      else if first_line s = "GET".data then .GET
      else if first_line s = "ACK".data then .GETACK
      else if "TCPGET".data <+: first_line s then .TCPReceiverExistence
      else if "SWD".data <+: first_line s then .StopWaitData
      else if "SWA".data <+: first_line s then .StopWaitACK
      else if "SWN".data <+: first_line s then .StopWaitNAK
      else if "GBN".data <+: first_line s then .GoBackN
      else if "SR".data <+: first_line s then .SRepeat
      else .Unrecognized := by
  have hfl : '\n' ∉ first_line s := first_line_no_newline s
  have h1 : (PacketHeader.discovery.isPrefixOf (header_of s) = true) ↔
      first_line s = "DISC".data := by
    rw [isPrefixOf_eq_true_iff,
      show PacketHeader.discovery = "DISC".data ++ ['\n'] from rfl, header_of]
    exact (token_nl_prefix_iff "DISC".data (first_line s) (by decide) hfl).trans eq_comm
  have h2 : (PacketHeader.get.isPrefixOf (header_of s) = true) ↔
      first_line s = "GET".data := by
    rw [isPrefixOf_eq_true_iff,
      show PacketHeader.get = "GET".data ++ ['\n'] from rfl, header_of]
    exact (token_nl_prefix_iff "GET".data (first_line s) (by decide) hfl).trans eq_comm
  have h3 : (PacketHeader.ack.isPrefixOf (header_of s) = true) ↔
      first_line s = "ACK".data := by
    rw [isPrefixOf_eq_true_iff,
      show PacketHeader.ack = "ACK".data ++ ['\n'] from rfl, header_of]
    exact (token_nl_prefix_iff "ACK".data (first_line s) (by decide) hfl).trans eq_comm
  have h4 : (PacketHeader.tcp_get.isPrefixOf (header_of s) = true) ↔
      "TCPGET".data <+: first_line s := by
    rw [isPrefixOf_eq_true_iff, header_of]
    exact bare_token_prefix_iff "TCPGET".data (first_line s) (by decide)
  have h5 : (PacketHeader.stop_and_wait_data.isPrefixOf (header_of s) = true) ↔
      "SWD".data <+: first_line s := by
    rw [isPrefixOf_eq_true_iff, header_of]
    exact bare_token_prefix_iff "SWD".data (first_line s) (by decide)
  have h6 : (PacketHeader.stop_and_wait_ack.isPrefixOf (header_of s) = true) ↔
      "SWA".data <+: first_line s := by
    rw [isPrefixOf_eq_true_iff, header_of]
    exact bare_token_prefix_iff "SWA".data (first_line s) (by decide)
  have h7 : (PacketHeader.stop_and_wait_nak.isPrefixOf (header_of s) = true) ↔
      "SWN".data <+: first_line s := by
    rw [isPrefixOf_eq_true_iff, header_of]
    exact bare_token_prefix_iff "SWN".data (first_line s) (by decide)
  have h8 : (PacketHeader.go_back_n.isPrefixOf (header_of s) = true) ↔
      "GBN".data <+: first_line s := by
    rw [isPrefixOf_eq_true_iff, header_of]
    exact bare_token_prefix_iff "GBN".data (first_line s) (by decide)
  have h9 : (PacketHeader.selective_repeat.isPrefixOf (header_of s) = true) ↔
      "SR".data <+: first_line s := by
    rw [isPrefixOf_eq_true_iff, header_of]
    exact bare_token_prefix_iff "SR".data (first_line s) (by decide)
  unfold PacketHeader.packet_type
  simp only [h1, h2, h3, h4, h5, h6, h7, h8, h9]

/-- Claim C9: the three newline-suffixed tokens require exact first-line
equality (a first line `"DISCOVER"` is not `Disc`), while the six bare
tokens match on any first-line prefix (a first line `"SRx"` is
`SRepeat`). -/
theorem c9_classify_first_line_iff (s : List Char) :
    (PacketHeader.packet_type s = PacketHeader.Disc ↔ first_line s = "DISC".data) ∧
    (PacketHeader.packet_type s = PacketHeader.GET ↔ first_line s = "GET".data) ∧
    (PacketHeader.packet_type s = PacketHeader.GETACK ↔ first_line s = "ACK".data) ∧
    (PacketHeader.packet_type s = PacketHeader.TCPReceiverExistence ↔
      "TCPGET".data <+: first_line s) ∧
    (PacketHeader.packet_type s = PacketHeader.StopWaitData ↔
      "SWD".data <+: first_line s) ∧
    (PacketHeader.packet_type s = PacketHeader.StopWaitACK ↔
      "SWA".data <+: first_line s) ∧
    (PacketHeader.packet_type s = PacketHeader.StopWaitNAK ↔
      "SWN".data <+: first_line s) ∧
    (PacketHeader.packet_type s = PacketHeader.GoBackN ↔
      "GBN".data <+: first_line s) ∧
    (PacketHeader.packet_type s = PacketHeader.SRepeat ↔
      "SR".data <+: first_line s) := by
  rw [packet_type_eq_cases s]
  set fl := first_line s with hfldef
  by_cases c1 : fl = "DISC".data
  · rw [c1]; decide
  · by_cases c2 : fl = "GET".data
    · rw [c2]; decide
    · by_cases c3 : fl = "ACK".data
      · rw [c3]; decide
      · by_cases c4 : "TCPGET".data <+: fl
        · have e5 : ¬ "SWD".data <+: fl :=
            not_prefix_of_other "SWD".data "TCPGET".data fl c4 (by decide) (by decide)
          have e6 : ¬ "SWA".data <+: fl :=
            not_prefix_of_other "SWA".data "TCPGET".data fl c4 (by decide) (by decide)
          have e7 : ¬ "SWN".data <+: fl :=
            not_prefix_of_other "SWN".data "TCPGET".data fl c4 (by decide) (by decide)
          have e8 : ¬ "GBN".data <+: fl :=
            not_prefix_of_other "GBN".data "TCPGET".data fl c4 (by decide) (by decide)
          have e9 : ¬ "SR".data <+: fl :=
            not_prefix_of_other "SR".data "TCPGET".data fl c4 (by decide) (by decide)
          simp [c1, c2, c3, c4, e5, e6, e7, e8, e9]
        · by_cases c5 : "SWD".data <+: fl
          · have e6 : ¬ "SWA".data <+: fl :=
              not_prefix_of_other "SWA".data "SWD".data fl c5 (by decide) (by decide)
            have e7 : ¬ "SWN".data <+: fl :=
              not_prefix_of_other "SWN".data "SWD".data fl c5 (by decide) (by decide)
            have e8 : ¬ "GBN".data <+: fl :=
              not_prefix_of_other "GBN".data "SWD".data fl c5 (by decide) (by decide)
            have e9 : ¬ "SR".data <+: fl :=
              not_prefix_of_other "SR".data "SWD".data fl c5 (by decide) (by decide)
            simp [c1, c2, c3, c4, c5, e6, e7, e8, e9]
          · by_cases c6 : "SWA".data <+: fl
            · have e7 : ¬ "SWN".data <+: fl :=
                not_prefix_of_other "SWN".data "SWA".data fl c6 (by decide) (by decide)
              have e8 : ¬ "GBN".data <+: fl :=
                not_prefix_of_other "GBN".data "SWA".data fl c6 (by decide) (by decide)
              have e9 : ¬ "SR".data <+: fl :=
                not_prefix_of_other "SR".data "SWA".data fl c6 (by decide) (by decide)
              simp [c1, c2, c3, c4, c5, c6, e7, e8, e9]
            · by_cases c7 : "SWN".data <+: fl
              · have e8 : ¬ "GBN".data <+: fl :=
                  not_prefix_of_other "GBN".data "SWN".data fl c7 (by decide) (by decide)
                have e9 : ¬ "SR".data <+: fl :=
                  not_prefix_of_other "SR".data "SWN".data fl c7 (by decide) (by decide)
                simp [c1, c2, c3, c4, c5, c6, c7, e8, e9]
              · by_cases c8 : "GBN".data <+: fl
                · have e9 : ¬ "SR".data <+: fl :=
                    not_prefix_of_other "SR".data "GBN".data fl c8 (by decide) (by decide)
                  simp [c1, c2, c3, c4, c5, c6, c7, c8, e9]
                · by_cases c9 : "SR".data <+: fl
                  · simp [c1, c2, c3, c4, c5, c6, c7, c8, c9]
                  · simp [c1, c2, c3, c4, c5, c6, c7, c8, c9]

/-- `Char.ofNat` never increases the code point (invalid code points
collapse to `0`). -/
theorem toNat_ofNat_le (n : Nat) : (Char.ofNat n).toNat ≤ n := by
  unfold Char.ofNat
  split
  · unfold Char.ofNatAux
    simp [Char.toNat, UInt32.toNat, BitVec.toNat_ofNatLt]
  · simp [Char.toNat, UInt32.toNat]

/-- A one-byte scalar value encodes in one byte. -/
theorem charUtf8Size_ofNat_le_one (n : Nat) (h : n ≤ 0x7F) :
    charUtf8Size (Char.ofNat n) ≤ 1 := by
  have := toNat_ofNat_le n
  unfold charUtf8Size
  split_ifs <;> omega

/-- A scalar value of at most `0x7FF` encodes in at most two bytes. -/
theorem charUtf8Size_ofNat_le_two (n : Nat) (h : n ≤ 0x7FF) :
    charUtf8Size (Char.ofNat n) ≤ 2 := by
  have := toNat_ofNat_le n
  unfold charUtf8Size
  split_ifs <;> omega

/-- A scalar value of at most `0xFFFF` encodes in at most three bytes. -/
theorem charUtf8Size_ofNat_le_three (n : Nat) (h : n ≤ 0xFFFF) :
    charUtf8Size (Char.ofNat n) ≤ 3 := by
  have := toNat_ofNat_le n
  unfold charUtf8Size
  split_ifs <;> omega

/-- No character encodes in more than four bytes. -/
theorem charUtf8Size_le_four (c : Char) : charUtf8Size c ≤ 4 := by
  unfold charUtf8Size
  split_ifs <;> omega

/-- Every character encodes in at least one byte. -/
theorem one_le_charUtf8Size (c : Char) : 1 ≤ charUtf8Size c := by
  unfold charUtf8Size
  split_ifs <;> omega

/-- One decoding step never consumes fewer bytes than the decoded
character re-encodes to. -/
theorem utf8Step_size_le (b : Nat) (rest : List Nat) (code : Nat)
    (rest2 : List Nat) (h : utf8Step b rest = some (code, rest2)) :
    charUtf8Size (Char.ofNat code) + rest2.length ≤ 1 + rest.length := by
  unfold utf8Step at h
  split_ifs at h with hb1 hb2 hb3 hb4
  · simp at h
    obtain ⟨hc, hr⟩ := h
    subst hc
    subst hr
    have := charUtf8Size_ofNat_le_one b hb1
    omega
  · cases rest with
    | nil => exact absurd h (by simp)
    | cons b2 r2 =>
      dsimp only at h
      split_ifs at h with hcont
      · simp at h
        obtain ⟨hc, hr⟩ := h
        subst hc
        subst hr
        have : charUtf8Size (Char.ofNat ((b - 0xC0) * 0x40 + (b2 - 0x80))) ≤ 2 :=
          charUtf8Size_ofNat_le_two _ (by omega)
        simp
        omega
  · cases rest with
    | nil => exact absurd h (by simp)
    | cons b2 r2 =>
      cases r2 with
      | nil => exact absurd h (by simp)
      | cons b3 r3 =>
        dsimp only at h
        split_ifs at h with hcont
        · simp at h
          obtain ⟨hc, hr⟩ := h
          subst hc
          subst hr
          have : charUtf8Size
              (Char.ofNat ((b - 0xE0) * 0x1000 + (b2 - 0x80) * 0x40 + (b3 - 0x80))) ≤ 3 := by
            refine charUtf8Size_ofNat_le_three _ ?_
            have hcont2 : 0x80 ≤ b2 ∧ b2 ≤ 0xBF := by
              have h2 := hcont.1
              unfold cont2ok at h2
              split_ifs at h2 <;> simp at h2 <;> omega
            omega
          simp
          omega
  · cases rest with
    | nil => exact absurd h (by simp)
    | cons b2 r2 =>
      cases r2 with
      | nil => exact absurd h (by simp)
      | cons b3 r3 =>
        cases r3 with
        | nil => exact absurd h (by simp)
        | cons b4 r4 =>
          dsimp only at h
          split_ifs at h with hcont
          · simp at h
            obtain ⟨hc, hr⟩ := h
            subst hc
            subst hr
            have := charUtf8Size_le_four (Char.ofNat
              ((b - 0xF0) * 0x40000 + (b2 - 0x80) * 0x1000 + (b3 - 0x80) * 0x40 + (b4 - 0x80)))
            simp
            omega

/-- Soundness of the fuel-indexed UTF-8 decoder: a decoded text never
re-encodes to more bytes than were consumed. -/
theorem utf8Go_utf8Len_le (fuel : Nat) :
    ∀ (l : List Nat) (cs : List Char), utf8Go fuel l = some cs →
      utf8Len cs ≤ l.length := by
  induction fuel with
  | zero =>
    intro l cs h
    cases l with
    | nil =>
      simp [utf8Go] at h
      subst h
      simp [utf8Len]
    | cons b rest => simp [utf8Go] at h
  | succ fuel ih =>
    intro l cs h
    cases l with
    | nil =>
      simp [utf8Go] at h
      subst h
      simp [utf8Len]
    | cons b rest =>
      simp only [utf8Go] at h
      cases hstep : utf8Step b rest with
      | none => rw [hstep] at h; simp at h
      | some pr =>
        obtain ⟨code, rest2⟩ := pr
        rw [hstep] at h
        dsimp only at h
        cases hrec : utf8Go fuel rest2 with
        | none => rw [hrec] at h; simp at h
        | some cs2 =>
          rw [hrec] at h
          simp at h
          subst h
          have h1 := utf8Step_size_le b rest code rest2 hstep
          have h2 := ih rest2 cs2 hrec
          simp [utf8Len] at h2 ⊢
          omega

/-- `from_utf8` never produces text that re-encodes to more bytes than
its input. -/
theorem from_utf8_utf8Len_le (l : List Nat) (cs : List Char)
    (h : from_utf8 l = some cs) : utf8Len cs ≤ l.length :=
  utf8Go_utf8Len_le l.length l cs h

/-- A text value has no more characters than UTF-8 bytes. -/
theorem length_le_utf8Len (cs : List Char) : cs.length ≤ utf8Len cs := by
  induction cs with
  | nil => simp [utf8Len]
  | cons c cs ih =>
    have := one_le_charUtf8Size c
    simp [utf8Len] at ih ⊢
    omega

/-- An ASCII decimal digit has code point between 48 and 57. -/
theorem isDigit_toNat_bounds (c : Char) (h : c.isDigit = true) :
    48 ≤ c.toNat ∧ c.toNat ≤ 57 := by
  simp only [Char.isDigit, Bool.and_eq_true, decide_eq_true_eq, ge_iff_le] at h
  obtain ⟨h1, h2⟩ := h
  rw [UInt32.le_def, BitVec.le_def] at h1 h2
  exact ⟨h1, h2⟩

/-- A `u16` parsed from at most two characters is at most 99. -/
theorem parse_u16_le_99 (cs : List Char) (v : Nat) (h : parse_u16 cs = some v)
    (hlen : cs.length ≤ 2) : v ≤ 99 := by
  unfold parse_u16 at h
  match cs, hlen with
  | [], _ => simp at h
  | [c], _ =>
    by_cases hc : c = '+'
    · subst hc
      simp at h
    · simp [hc] at h
      have := isDigit_toNat_bounds c h.1
      omega
  | [c1, c2], _ =>
    by_cases hc : c1 = '+'
    · subst hc
      simp at h
      have := isDigit_toNat_bounds c2 h.1
      omega
    · simp [hc] at h
      have hb1 := isDigit_toNat_bounds c1 h.1.1
      have hb2 := isDigit_toNat_bounds c2 h.1.2
      omega
  | c1 :: c2 :: c3 :: rest, hlen => simp at hlen

/-- A successful Rust slice `&buf[a..b]` has length `b - a` and implies
the bounds were valid. -/
theorem rustSlice_eq_some (buf : List Nat) (a b : Nat) (s : List Nat)
    (h : rustSlice buf a b = some s) :
    s.length = b - a ∧ a ≤ b ∧ b ≤ buf.length := by
  unfold rustSlice at h
  split_ifs at h with hb
  · simp at h
    subst h
    simp [List.length_drop, List.length_take]
    omega

/-- A fixed 2-byte field parsed by `u16_from_bytes` is at most 99. -/
theorem u16_from_bytes_le_99 (bs : List Nat) (v : Nat)
    (h : StopAndWaitHeader.u16_from_bytes bs = some v) (hlen : bs.length ≤ 2) :
    v ≤ 99 := by
  unfold StopAndWaitHeader.u16_from_bytes at h
  cases hu : from_utf8 bs with
  | none => rw [hu] at h; simp at h
  | some cs =>
    rw [hu] at h
    have h1 : cs.length ≤ utf8Len cs := length_le_utf8Len cs
    have h2 : utf8Len cs ≤ bs.length := from_utf8_utf8Len_le bs cs hu
    exact parse_u16_le_99 cs v h (by omega)

/-- Claim C10: every successfully decoded `StopAndWaitHeader` has its
three fixed fields parsed from 2-byte slices, hence each at most 99, and
its file name spans at most `header_size - 6 ≤ 93` bytes. -/
theorem c10_decoded_fields_bounded (buf : List Nat) (h : StopAndWaitHeader)
    (hdec : StopAndWaitHeader.from_string buf = some h) :
    h.header_size ≤ 99 ∧ h.get_port ≤ 99 ∧ h.rdt_port ≤ 99 ∧
      utf8Len h.file_name ≤ 93 := by
  unfold StopAndWaitHeader.from_string at hdec
  cases h1 : rustSlice buf 0 2 with
  | none => rw [h1] at hdec; simp at hdec
  | some s1 =>
    rw [h1] at hdec
    dsimp only at hdec
    cases h2 : StopAndWaitHeader.u16_from_bytes s1 with
    | none => rw [h2] at hdec; simp at hdec
    | some header_size =>
      rw [h2] at hdec
      dsimp only at hdec
      cases h3 : rustSlice buf 2 4 with
      | none => rw [h3] at hdec; simp at hdec
      | some s2 =>
        rw [h3] at hdec
        dsimp only at hdec
        cases h4 : StopAndWaitHeader.u16_from_bytes s2 with
        | none => rw [h4] at hdec; simp at hdec
        | some get_port =>
          rw [h4] at hdec
          dsimp only at hdec
          cases h5 : rustSlice buf 4 6 with
          | none => rw [h5] at hdec; simp at hdec
          | some s3 =>
            rw [h5] at hdec
            dsimp only at hdec
            cases h6 : StopAndWaitHeader.u16_from_bytes s3 with
            | none => rw [h6] at hdec; simp at hdec
            | some rdt_port =>
              rw [h6] at hdec
              dsimp only at hdec
              cases h7 : rustSlice buf 6 header_size with
              | none => rw [h7] at hdec; simp at hdec
              | some s4 =>
                rw [h7] at hdec
                dsimp only at hdec
                cases h8 : from_utf8 s4 with
                | none => rw [h8] at hdec; simp at hdec
                | some fn =>
                  rw [h8] at hdec
                  simp [StopAndWaitHeader.new] at hdec
                  subst hdec
                  have hs1 := rustSlice_eq_some buf 0 2 s1 h1
                  have hs2 := rustSlice_eq_some buf 2 4 s2 h3
                  have hs3 := rustSlice_eq_some buf 4 6 s3 h5
                  have hs4 := rustSlice_eq_some buf 6 header_size s4 h7
                  have hb1 := u16_from_bytes_le_99 s1 header_size h2 (by omega)
                  have hb2 := u16_from_bytes_le_99 s2 get_port h4 (by omega)
                  have hb3 := u16_from_bytes_le_99 s3 rdt_port h6 (by omega)
                  have hfn : utf8Len fn ≤ s4.length := from_utf8_utf8Len_le s4 fn h8
                  refine ⟨hb1, hb2, hb3, ?_⟩
                  simp
                  omega

/-- Witness for C10 at the concrete 8-byte buffer `"081020a\x00"`. -/
theorem c10_decoded_fields_bounded_witness :
    8 ≤ 99 ∧ 10 ≤ 99 ∧ 20 ≤ 99 ∧ utf8Len ['a', Char.ofNat 0] ≤ 93 :=
  c10_decoded_fields_bounded [48, 56, 49, 48, 50, 48, 97, 0]
    ⟨8, 10, 20, ['a', Char.ofNat 0]⟩ (by decide)
